import Mathlib

/-!
Verification of the foreign-callback dispatch core of uniffi-rs.

Shallow embedding of three source files:
* `uniffi/src/ffi/foreigncallbacks.rs` — the `ForeignCallbackInternals`
  trampoline registry (an `AtomicUsize` slot holding a foreign callback
  function pointer), the `IDX_CALLBACK_FREE` selector constant, and the
  `ForeignCallback` signature.
* `uniffi_bindgen/src/scaffolding/templates/RecordTemplate.rs` — the
  generated `RustBufferFfiConverter` impl for a declared record type:
  `write` serializes the fields in declaration order into a byte vector,
  `try_read` reads them back in order, short-circuiting on the first error.
* `uniffi_bindgen/src/bindings/python/gen_python/primitives.rs` — the
  `render_literal` function producing Python literal tokens.

Function pointers are modelled by their address, a `Nat` (`usize`); a valid
Rust function pointer is never null, which appears as `≠ EMPTY_PTR`
hypotheses. Byte buffers (`Vec<u8>` / `&[u8]`) are modelled as `List Nat`.
Panics are modelled as explicit result values, fallible reads as `Except`.
-/

namespace Uniffi

/-! ## Trampoline registry: `ForeignCallbackInternals` -/

/-- The sentinel for an empty slot (`const EMPTY_PTR: usize = 0`). -/
def EMPTY_PTR : Nat := 0

/-- The method index used by the Drop trait to tell the foreign side a
handle can be deleted (`pub const IDX_CALLBACK_FREE: u32 = 0`). -/
def IDX_CALLBACK_FREE : Nat := 0

/-- Modelled from the spec: the assignment of selectors to an interface's
declared methods is not in the sources (only documented on the
`ForeignCallback` type: "The index is 1 indexed"); per the spec, selectors
`1..N` are assigned to the methods in declaration order. `i` is the 0-based
position of a method in the declared list. -/
def methodSelector (i : Nat) : Nat := i + 1

/-- The registry struct: `callback_ptr: AtomicUsize` holding a
`ForeignCallback` function pointer as a pointer-sized integer. -/
structure ForeignCallbackInternals where
  callback_ptr : Nat
deriving DecidableEq

/-- `ForeignCallbackInternals::new`: the slot starts at `EMPTY_PTR`. -/
def ForeignCallbackInternals.new : ForeignCallbackInternals :=
  { callback_ptr := EMPTY_PTR }

/-- Outcome of a call to `set_callback`: either it returns normally or it
panics with the given message. -/
inductive SetResult where
  | ok : SetResult
  | panicked : String → SetResult
deriving DecidableEq

/-- The diagnostic of the multiple-set panic in `set_callback`. -/
def multipleSetMsg : String :=
  "Bug: call set_callback multiple times. This is likely a uniffi bug"

/-- `ForeignCallbackInternals::set_callback`: a `compare_exchange` of
`EMPTY_PTR` against the callback's address. It succeeds (returns the old
value `EMPTY_PTR`, matched by the `Ok(EMPTY_PTR)` arm) exactly when the
slot holds `EMPTY_PTR`, installing the pointer; otherwise the exchange
fails, the slot is untouched, and the `_` arm panics. The pair returned is
(call outcome, registry state after the call). -/
def ForeignCallbackInternals.set_callback (self : ForeignCallbackInternals)
    (callback : Nat) : SetResult × ForeignCallbackInternals :=
  if self.callback_ptr = EMPTY_PTR then
    (SetResult.ok, { callback_ptr := callback })
  else
    (SetResult.panicked multipleSetMsg, self)

/-- The `transmute::<usize, Option<ForeignCallback>>` in `get_callback`.
Rust guarantees (checked by the `assert_eq_size!` lines) that `usize`,
`ForeignCallback` and `Option<ForeignCallback>` have the same size, with
`None` represented by the null pointer `0` and `Some(f)` by the (non-null)
address of `f`. -/
def transmuteUsizeToOptionCallback (n : Nat) : Option Nat :=
  if n = 0 then none else some n

/-- `ForeignCallbackInternals::get_callback`: an atomic load of the slot
followed by the transmute to `Option<ForeignCallback>`. -/
def ForeignCallbackInternals.get_callback (self : ForeignCallbackInternals) :
    Option Nat :=
  transmuteUsizeToOptionCallback self.callback_ptr

/-- Runs a sequence of `set_callback` calls (with the given callback
addresses, in order) against a registry, keeping the final state; panicking
calls leave the state as `set_callback` left it. -/
def runSetCalls (s : ForeignCallbackInternals) :
    List Nat → ForeignCallbackInternals
  | [] => s
  | f :: fs => runSetCalls (s.set_callback f).2 fs

/-! ## Record serialization: the generated `RustBufferFfiConverter` -/

/-- A per-field type converter, as invoked by the generated record code:
`write(value, buf)` pushes the field's encoding onto the byte vector `buf`
(returning the updated vector), `try_read(buf)` parses a value off the
front of the byte slice `buf`, returning it with the unconsumed remainder,
or an error. The per-field converters themselves are generated elsewhere;
the record template only composes them. -/
structure FfiConverter (V : Type) where
  write : V → List Nat → List Nat
  try_read : List Nat → Except String (V × List Nat)

/-- A converter whose `write` appends a value-determined byte string to the
buffer, independently of the buffer's prior contents (the contract of
`write(obj, buf: &mut Vec<u8>)`). -/
def FfiConverter.Appends {V : Type} (c : FfiConverter V) : Prop :=
  ∀ v buf, c.write v buf = buf ++ c.write v []

/-- A converter that round-trips: reading directly after writing a value
returns that value and consumes exactly the bytes the write produced. -/
def FfiConverter.RoundTrips {V : Type} (c : FfiConverter V) : Prop :=
  ∀ v rest, c.try_read (c.write v [] ++ rest) = Except.ok (v, rest)

/-- The generated `write` for a record (RecordTemplate.rs): for each field
in declaration order, `Converter::write(obj.field, buf)` on the shared
buffer. A record value is the list of its field values; `convs` lists the
fields' converters in declaration order. -/
def recordWrite {V : Type} :
    List (FfiConverter V) → List V → List Nat → List Nat
  | c :: cs, v :: vs, buf => recordWrite cs vs (c.write v buf)
  | _, _, buf => buf

/-- The generated `try_read` for a record (RecordTemplate.rs): the struct
literal evaluates `Converter::try_read(buf)?` for each field in declaration
order, so the first failing field's error is returned and later fields are
not read. -/
def recordTryRead {V : Type} :
    List (FfiConverter V) → List Nat → Except String (List V × List Nat)
  | [], buf => Except.ok ([], buf)
  | c :: cs, buf =>
    match c.try_read buf with
    | Except.ok (v, rest) =>
      match recordTryRead cs rest with
      | Except.ok (vs, rest2) => Except.ok (v :: vs, rest2)
      | Except.error e => Except.error e
    | Except.error e => Except.error e

/-- A concrete single-byte converter, used to instantiate the record
theorems on concrete inputs. -/
def byteConv : FfiConverter Nat where
  write v buf := buf ++ [v]
  try_read buf :=
    match buf with
    | [] => Except.error "unexpected end of buffer"
    | b :: rest => Except.ok (b, rest)

/-! ## Python literal rendering: `render_literal` -/

/-- `crate::interface::Radix`, matched on by `render_literal`. -/
inductive Radix where
  | octal : Radix
  | decimal : Radix
  | hexadecimal : Radix
deriving DecidableEq

/-- Modelled from the spec: the `Literal` enum from `crate::interface` is
not among the sources. Its five handled shapes are taken from the match
arms of `render_literal` (the third component of `Int`/`UInt` and the
second of `Float` is the literal's type, ignored by the match and modelled
as `Unit`); the remaining shapes reached by the `_ => unreachable!` arm
(enum, null, empty sequence, empty map) are taken from the claim. -/
inductive Literal where
  | boolean : Bool → Literal
  | string : String → Literal
  | int : Int → Radix → Unit → Literal
  | uint : Nat → Radix → Unit → Literal
  | float : String → Unit → Literal
  | enum : String → Literal
  | null : Literal
  | emptySequence : Literal
  | emptyMap : Literal
deriving DecidableEq

/-- Octal digit string of a natural number, as Rust's `{:o}` format. -/
def natToOctal (n : Nat) : String := (Nat.toDigits 8 n).asString

/-- Lowercase hexadecimal digit string of a natural number, as Rust's
`{:x}` format (`{:#x}` prepends `0x`). -/
def natToHex (n : Nat) : String := (Nat.toDigits 16 n).asString

/-- The 64-bit two's-complement bit pattern of an `i64`, as a natural
number: Rust's `{:o}` and `{:x}` format a signed integer's bit pattern. -/
def u64OfI64 (i : Int) : Nat := (i % (2 ^ 64 : Int)).toNat

/-- `render_literal` from gen_python/primitives.rs. The `unreachable!`
panic on unsupported shapes is modelled as `none`; a supported shape
renders to `some` Python token. -/
def render_literal (literal : Literal) : Option String :=
  match literal with
  | Literal.boolean v => some (if v then "True" else "False")
  | Literal.string s => some ("\"" ++ s ++ "\"")
  | Literal.int i radix _ =>
    some (match radix with
      | Radix.octal => "int(0o" ++ natToOctal (u64OfI64 i) ++ ")"
      | Radix.decimal => toString i
      | Radix.hexadecimal => "0x" ++ natToHex (u64OfI64 i))
  | Literal.uint i radix _ =>
    some (match radix with
      | Radix.octal => "0o" ++ natToOctal i
      | Radix.decimal => toString i
      | Radix.hexadecimal => "0x" ++ natToHex i)
  | Literal.float s _ => some s
  | _ => none

/-! ## Helper lemmas -/

/-- A populated slot is frozen: every further `set_callback` call panics
and leaves the registry unchanged, so any sequence of calls does too. -/
lemma runSetCalls_of_ne (p : Nat) (hp : p ≠ EMPTY_PTR) (fs : List Nat) :
    runSetCalls { callback_ptr := p } fs = { callback_ptr := p } := by
  induction fs with
  | nil => rfl
  | cons f fs ih =>
    simpa [runSetCalls, ForeignCallbackInternals.set_callback, hp] using ih

/-- `byteConv.write` appends a byte string independent of prior buffer
contents. -/
lemma byteConv_appends : byteConv.Appends := by
  intro v buf
  rfl

/-- `byteConv` round-trips. -/
lemma byteConv_roundTrips : byteConv.RoundTrips := by
  intro v rest
  rfl

/-- Unfolding of the record `try_read` when the head field decodes. -/
lemma recordTryRead_cons_ok {V : Type} (c : FfiConverter V)
    (cs : List (FfiConverter V)) (buf : List Nat) (v : V) (rest : List Nat)
    (h : c.try_read buf = Except.ok (v, rest)) :
    recordTryRead (c :: cs) buf =
      match recordTryRead cs rest with
      | Except.ok (vs, rest2) => Except.ok (v :: vs, rest2)
      | Except.error e => Except.error e := by
  simp [recordTryRead, h]

/-- Unfolding of the record `try_read` when the head field fails. -/
lemma recordTryRead_cons_error {V : Type} (c : FfiConverter V)
    (cs : List (FfiConverter V)) (buf : List Nat) (e : String)
    (h : c.try_read buf = Except.error e) :
    recordTryRead (c :: cs) buf = Except.error e := by
  simp [recordTryRead, h]

/-- When every field converter appends, the record `write` appends: the
bytes it adds do not depend on the buffer's prior contents. -/
lemma recordWrite_append {V : Type} (convs : List (FfiConverter V)) :
    (∀ c ∈ convs, c.Appends) → ∀ (fields : List V) (buf : List Nat),
      recordWrite convs fields buf = buf ++ recordWrite convs fields [] := by
  induction convs with
  | nil =>
    intro _ fields buf
    simp [recordWrite]
  | cons c cs ih =>
    intro happ fields buf
    cases fields with
    | nil => simp [recordWrite]
    | cons v vs =>
      have hc : c.Appends := happ c (List.mem_cons_self c cs)
      have hcs : ∀ d ∈ cs, d.Appends := fun d hd => happ d (List.mem_cons_of_mem c hd)
      simp only [recordWrite]
      rw [ih hcs vs (c.write v buf), ih hcs vs (c.write v []), hc v buf,
        List.append_assoc]

/-- The bytes produced by the record `write` from an empty buffer are the
concatenation of the fields' individual encodings, in order. -/
lemma recordWrite_flatten {V : Type} (convs : List (FfiConverter V)) :
    (∀ c ∈ convs, c.Appends) → ∀ (fields : List V),
      recordWrite convs fields [] =
        (List.zipWith (fun c v => c.write v []) convs fields).flatten := by
  induction convs with
  | nil =>
    intro _ fields
    cases fields <;> simp [recordWrite]
  | cons c cs ih =>
    intro happ fields
    cases fields with
    | nil => simp [recordWrite]
    | cons v vs =>
      have hcs : ∀ d ∈ cs, d.Appends := fun d hd => happ d (List.mem_cons_of_mem c hd)
      simp only [recordWrite, List.zipWith_cons_cons, List.flatten_cons]
      rw [recordWrite_append cs hcs vs (c.write v []), ih hcs vs]

/-- Generalized record round-trip: reading the record's encoding followed
by arbitrary extra bytes returns the record and leaves the extra bytes. -/
lemma recordTryRead_of_recordWrite {V : Type} (convs : List (FfiConverter V)) :
    ∀ (fields : List V) (rest : List Nat), convs.length = fields.length →
      (∀ c ∈ convs, c.Appends) → (∀ c ∈ convs, c.RoundTrips) →
      recordTryRead convs (recordWrite convs fields [] ++ rest) =
        Except.ok (fields, rest) := by
  induction convs with
  | nil =>
    intro fields rest hlen _ _
    cases fields with
    | nil => simp [recordTryRead, recordWrite]
    | cons v vs => simp at hlen
  | cons c cs ih =>
    intro fields rest hlen happ hrt
    cases fields with
    | nil => simp at hlen
    | cons v vs =>
      have hc_rt : c.RoundTrips := hrt c (List.mem_cons_self c cs)
      have hcs_app : ∀ d ∈ cs, d.Appends := fun d hd => happ d (List.mem_cons_of_mem c hd)
      have hcs_rt : ∀ d ∈ cs, d.RoundTrips := fun d hd => hrt d (List.mem_cons_of_mem c hd)
      have hlen2 : cs.length = vs.length := by simpa using hlen
      have hw : recordWrite (c :: cs) (v :: vs) [] =
          c.write v [] ++ recordWrite cs vs [] := by
        simp only [recordWrite]
        exact recordWrite_append cs hcs_app vs (c.write v [])
      rw [hw, List.append_assoc,
        recordTryRead_cons_ok c cs _ v (recordWrite cs vs [] ++ rest)
          (hc_rt v (recordWrite cs vs [] ++ rest)),
        ih vs rest hlen2 hcs_app hcs_rt]

/-! ## Claim theorems -/

/-- C1: `set_callback` succeeds exactly once per registry: on a fresh
registry it installs the callback pointer and returns normally, and after
that every subsequent call, whatever its argument and however many failing
calls came in between, panics with the multiple-set diagnostic. -/
theorem set_callback_succeeds_exactly_once (f g : Nat) (fs : List Nat)
    (hf : f ≠ EMPTY_PTR) :
    ForeignCallbackInternals.new.set_callback f =
      (SetResult.ok, { callback_ptr := f })
    ∧ ((runSetCalls (ForeignCallbackInternals.new.set_callback f).2 fs).set_callback g).1
        = SetResult.panicked multipleSetMsg := by
  have h1 : ForeignCallbackInternals.new.set_callback f =
      (SetResult.ok, { callback_ptr := f }) := by
    simp [ForeignCallbackInternals.new, ForeignCallbackInternals.set_callback]
  refine ⟨h1, ?_⟩
  rw [h1]
  rw [runSetCalls_of_ne f hf fs]
  simp [ForeignCallbackInternals.set_callback, hf]

theorem set_callback_succeeds_exactly_once_witness :
    (1 : Nat) ≠ EMPTY_PTR
    ∧ (ForeignCallbackInternals.new.set_callback 1 =
        (SetResult.ok, { callback_ptr := 1 })
      ∧ ((runSetCalls (ForeignCallbackInternals.new.set_callback 1).2 [3]).set_callback 2).1
          = SetResult.panicked multipleSetMsg) :=
  ⟨by decide, set_callback_succeeds_exactly_once 1 2 [3] (by decide)⟩

/-- C2: on a freshly constructed registry, before any `set_callback`,
`get_callback` returns `none`: the slot starts empty. -/
theorem get_callback_unset_on_new :
    ForeignCallbackInternals.new.get_callback = none := rfl

/-- C3: once `set_callback f` has succeeded, `get_callback` returns
`some f`, and no sequence of further `set_callback` calls (all of which
fail) ever changes the stored value. -/
theorem registry_immutable_after_set (f : Nat) (fs : List Nat)
    (hf : f ≠ EMPTY_PTR) :
    (runSetCalls (ForeignCallbackInternals.new.set_callback f).2 fs).get_callback
      = some f := by
  have h1 : (ForeignCallbackInternals.new.set_callback f).2 =
      { callback_ptr := f } := by
    simp [ForeignCallbackInternals.new, ForeignCallbackInternals.set_callback]
  rw [h1, runSetCalls_of_ne f hf fs]
  have hf0 : f ≠ 0 := hf
  simp [ForeignCallbackInternals.get_callback, transmuteUsizeToOptionCallback, hf0]

theorem registry_immutable_after_set_witness :
    (1 : Nat) ≠ EMPTY_PTR
    ∧ (runSetCalls (ForeignCallbackInternals.new.set_callback 1).2 [2, 3]).get_callback
        = some 1 :=
  ⟨by decide, registry_immutable_after_set 1 [2, 3] (by decide)⟩

/-- C4: if every field converter appends and round-trips, the generated
record converter round-trips: `try_read` on the buffer produced by
`write` (from an empty buffer) succeeds and returns the record, consuming
the whole buffer. -/
theorem record_roundTrip {V : Type} (convs : List (FfiConverter V))
    (fields : List V) (hlen : convs.length = fields.length)
    (happ : ∀ c ∈ convs, c.Appends) (hrt : ∀ c ∈ convs, c.RoundTrips) :
    recordTryRead convs (recordWrite convs fields []) =
      Except.ok (fields, []) := by
  have h := recordTryRead_of_recordWrite convs fields [] hlen happ hrt
  simpa using h

theorem record_roundTrip_witness :
    ([byteConv, byteConv].length = [3, 5].length)
    ∧ recordTryRead [byteConv, byteConv] (recordWrite [byteConv, byteConv] [3, 5] [])
        = Except.ok ([3, 5], []) := by
  refine ⟨rfl, record_roundTrip [byteConv, byteConv] [3, 5] rfl ?_ ?_⟩
  · intro c hc
    fin_cases hc <;> exact byteConv_appends
  · intro c hc
    fin_cases hc <;> exact byteConv_roundTrips

/-- C5: reading a slot that has never been written is total and observable:
`get_callback` returns `none`, the transmute of the empty value `0` to
`Option<ForeignCallback>`; it never crashes. -/
theorem get_callback_unwritten_safe (s : ForeignCallbackInternals)
    (h : s.callback_ptr = EMPTY_PTR) : s.get_callback = none := by
  simp [ForeignCallbackInternals.get_callback, transmuteUsizeToOptionCallback, h,
    EMPTY_PTR]

theorem get_callback_unwritten_safe_witness :
    ForeignCallbackInternals.new.callback_ptr = EMPTY_PTR
    ∧ ForeignCallbackInternals.new.get_callback = none :=
  ⟨rfl, get_callback_unwritten_safe ForeignCallbackInternals.new rfl⟩

/-- C6: the reserved release selector `IDX_CALLBACK_FREE` equals `0`, and
the selector of the method at 0-based declaration position `i` is `i + 1`,
so every declared method's selector is at least `1` and never the reserved
`0`. -/
theorem reserved_selector_zero :
    IDX_CALLBACK_FREE = 0
    ∧ (∀ i : Nat, methodSelector i = i + 1)
    ∧ (∀ i : Nat, 1 ≤ methodSelector i ∧ methodSelector i ≠ IDX_CALLBACK_FREE) := by
  refine ⟨rfl, fun i => rfl, fun i => ?_⟩
  simp [methodSelector, IDX_CALLBACK_FREE]

/-- C7: the generated record `write` appends exactly the concatenation of
the fields' encodings in declaration order — no header, separator or
trailing bytes — when every field converter appends. -/
theorem recordWrite_concat_fields {V : Type} (convs : List (FfiConverter V))
    (fields : List V) (buf : List Nat) (happ : ∀ c ∈ convs, c.Appends) :
    recordWrite convs fields buf =
      buf ++ (List.zipWith (fun c v => c.write v []) convs fields).flatten := by
  rw [recordWrite_append convs happ fields buf, recordWrite_flatten convs happ fields]

theorem recordWrite_concat_fields_witness :
    recordWrite [byteConv, byteConv] [3, 5] [9] =
      [9] ++ (List.zipWith (fun c v => FfiConverter.write c v [])
        [byteConv, byteConv] [3, 5]).flatten := by
  refine recordWrite_concat_fields [byteConv, byteConv] [3, 5] [9] ?_
  intro c hc
  fin_cases hc <;> exact byteConv_appends

/-- C8: the generated record `try_read` is total and short-circuits: if the
fields before position `i` decode successfully and the field at `i` fails
with error `e`, the record `try_read` returns `e`, whatever converters
follow (they are never consulted). -/
theorem recordTryRead_first_error {V : Type} (pre post : List (FfiConverter V))
    (c : FfiConverter V) (buf rest : List Nat) (vs : List V) (e : String)
    (hpre : recordTryRead pre buf = Except.ok (vs, rest))
    (hc : c.try_read rest = Except.error e) :
    recordTryRead (pre ++ c :: post) buf = Except.error e := by
  induction pre generalizing buf vs with
  | nil =>
    simp only [recordTryRead, Except.ok.injEq, Prod.mk.injEq] at hpre
    obtain ⟨hvs, hbuf⟩ := hpre
    subst hbuf
    rw [List.nil_append]
    exact recordTryRead_cons_error c post buf e hc
  | cons d ds ih =>
    cases hd : d.try_read buf with
    | error e1 =>
      rw [recordTryRead_cons_error d ds buf e1 hd] at hpre
      simp at hpre
    | ok vr =>
      obtain ⟨v1, r1⟩ := vr
      rw [recordTryRead_cons_ok d ds buf v1 r1 hd] at hpre
      cases hds : recordTryRead ds r1 with
      | error e2 =>
        rw [hds] at hpre
        simp at hpre
      | ok vsr =>
        obtain ⟨vs2, r2⟩ := vsr
        rw [hds] at hpre
        simp only [Except.ok.injEq, Prod.mk.injEq] at hpre
        have hr2 : r2 = rest := hpre.2
        have h2 : recordTryRead ds r1 = Except.ok (vs2, rest) := by
          rw [hds, hr2]
        have h3 := ih r1 vs2 h2
        rw [List.cons_append,
          recordTryRead_cons_ok d (ds ++ c :: post) buf v1 r1 hd, h3]

theorem recordTryRead_first_error_witness :
    recordTryRead [byteConv] [7] = Except.ok ([7], [])
    ∧ byteConv.try_read [] = Except.error "unexpected end of buffer"
    ∧ recordTryRead ([byteConv] ++ byteConv :: [byteConv]) [7]
        = Except.error "unexpected end of buffer" :=
  ⟨rfl, rfl,
    recordTryRead_first_error [byteConv] [byteConv] byteConv [7] [] [7]
      "unexpected end of buffer" rfl rfl⟩

/-- C9: a failing `set_callback` is atomic: on a registry whose slot
already holds callback `f`, the call panics, returns the registry
unchanged, and `get_callback` still returns `some f` — the second callback
is never installed. -/
theorem failing_set_callback_atomic (s : ForeignCallbackInternals)
    (f g : Nat) (h : s.get_callback = some f) :
    s.set_callback g = (SetResult.panicked multipleSetMsg, s)
    ∧ (s.set_callback g).2.get_callback = some f := by
  have hne : s.callback_ptr ≠ EMPTY_PTR := by
    intro h0
    simp only [ForeignCallbackInternals.get_callback, h0,
      transmuteUsizeToOptionCallback, EMPTY_PTR] at h
    simp at h
  have hset : s.set_callback g = (SetResult.panicked multipleSetMsg, s) := by
    simp [ForeignCallbackInternals.set_callback, hne]
  exact ⟨hset, by rw [hset]; exact h⟩

theorem failing_set_callback_atomic_witness :
    ({ callback_ptr := 1 } : ForeignCallbackInternals).get_callback = some 1
    ∧ (({ callback_ptr := 1 } : ForeignCallbackInternals).set_callback 2
        = (SetResult.panicked multipleSetMsg, { callback_ptr := 1 })
      ∧ (({ callback_ptr := 1 } : ForeignCallbackInternals).set_callback 2).2.get_callback
          = some 1) :=
  ⟨rfl, failing_set_callback_atomic { callback_ptr := 1 } 1 2 rfl⟩

/-- C10: `render_literal` supports exactly five literal shapes — Boolean
renders to `True`/`False`, String to the string in double quotes, Int/UInt
to a Python integer token in the literal's radix (signed octal wrapped as
`int(0o...)`, octal and hex printing the 64-bit two's-complement pattern),
Float to its stored string — and panics (modelled as `none`) on every
other shape. -/
theorem render_literal_shapes :
    (∀ v, render_literal (Literal.boolean v) =
      some (if v then "True" else "False"))
    ∧ (∀ s, render_literal (Literal.string s) = some ("\"" ++ s ++ "\""))
    ∧ (∀ i t, render_literal (Literal.int i Radix.octal t) =
        some ("int(0o" ++ natToOctal (u64OfI64 i) ++ ")"))
    ∧ (∀ i t, render_literal (Literal.int i Radix.decimal t) =
        some (toString i))
    ∧ (∀ i t, render_literal (Literal.int i Radix.hexadecimal t) =
        some ("0x" ++ natToHex (u64OfI64 i)))
    ∧ (∀ i t, render_literal (Literal.uint i Radix.octal t) =
        some ("0o" ++ natToOctal i))
    ∧ (∀ i t, render_literal (Literal.uint i Radix.decimal t) =
        some (toString i))
    ∧ (∀ i t, render_literal (Literal.uint i Radix.hexadecimal t) =
        some ("0x" ++ natToHex i))
    ∧ (∀ s t, render_literal (Literal.float s t) = some s)
    ∧ (∀ s, render_literal (Literal.enum s) = none)
    ∧ render_literal Literal.null = none
    ∧ render_literal Literal.emptySequence = none
    ∧ render_literal Literal.emptyMap = none :=
  ⟨fun _ => rfl, fun _ => rfl, fun _ _ => rfl, fun _ _ => rfl, fun _ _ => rfl,
    fun _ _ => rfl, fun _ _ => rfl, fun _ _ => rfl, fun _ _ => rfl,
    fun _ => rfl, rfl, rfl, rfl⟩

end Uniffi
